import Mathlib

set_option maxRecDepth 100000

/-!
Verification of the continuity-plugin persistence core.

A shallow embedding of the `continuity-plugin` repository's persistence
substrate: the `ContinuityStore` append-only stream writer (`src/lib/health.ts`,
second document: the store), the `IntegrityValidator` (`src/unnamed/part_001`),
the `SessionRestorer` implicit-resumption decision (`src/unnamed/part_000`),
and the store's `getRecentActions` reader.

Modelling conventions:
* Pure computations (hashing, serialization, hash-chain construction,
  validation) are translated directly into executable Lean functions.
* SHA-256 is implemented concretely (FIPS 180-4) over UTF-8 bytes, matching
  Node's `createHash("sha256").update(content).digest("hex")`.
* `JSON.stringify` is modelled by a concrete serializer that emits the object
  keys in the insertion order the source produces (interface field order, with
  `sequence` appended by the spread `{...entry, sequence}` and `_integrity`
  last); `undefined` (absent optional) fields are omitted, as in JS.
* Filesystem effects are modelled by an oracle record (`FsOracle`) giving the
  outcome of each I/O call, and each operation returns the list of performed
  writes (`WriteEvent`) next to its result and the successor in-memory state.
* A JS exception propagating out of `logAction` is modelled by the
  `LogResult.raised` outcome.
* JS falsiness of `null`/`""` on strings (`x || "genesis"`, `!firstAction`)
  is modelled exactly by `jsStrTruthy` on `Option String`.
-/

namespace Sha256

/-- Truncate to a 32-bit word, as JS-side crypto and the hash arithmetic do. -/
def u32 (n : Nat) : Nat := n % 4294967296

/-- 32-bit right rotation. -/
def rotr (n w : Nat) : Nat := u32 ((w >>> n) ||| (w <<< (32 - n)))

/-- 32-bit bitwise complement. -/
def compl32 (w : Nat) : Nat := w ^^^ 4294967295

/-- The 64 SHA-256 round constants (FIPS 180-4 §4.2.2, written in decimal). -/
def roundConsts : List Nat :=
  [1116352408, 1899447441, 3049323471, 3921009573, 961987163,
   1508970993, 2453635748, 2870763221, 3624381080, 310598401,
   607225278, 1426881987, 1925078388, 2162078206, 2614888103,
   3248222580, 3835390401, 4022224774, 264347078, 604807628,
   770255983, 1249150122, 1555081692, 1996064986, 2554220882,
   2821834349, 2952996808, 3210313671, 3336571891, 3584528711,
   113926993, 338241895, 666307205, 773529912, 1294757372,
   1396182291, 1695183700, 1986661051, 2177026350, 2456956037,
   2730485921, 2820302411, 3259730800, 3345764771, 3516065817,
   3600352804, 4094571909, 275423344, 430227734, 506948616,
   659060556, 883997877, 958139571, 1322822218, 1537002063,
   1747873779, 1955562222, 2024104815, 2227730452, 2361852424,
   2428436474, 2756734187, 3204031479, 3329325298]

/-- The eight working registers of the compression function. -/
structure Regs where
  a : Nat
  b : Nat
  c : Nat
  d : Nat
  e : Nat
  f : Nat
  g : Nat
  h : Nat

/-- The SHA-256 initial hash value (FIPS 180-4 §5.3.3, written in decimal). -/
def initRegs : Regs :=
  ⟨1779033703, 3144134277, 1013904242, 2773480762,
   1359893119, 2600822924, 528734635, 1541459225⟩

/-- One round of the SHA-256 compression function. -/
def round (r : Regs) (wi ki : Nat) : Regs :=
  let s1 := (rotr 6 r.e) ^^^ (rotr 11 r.e) ^^^ (rotr 25 r.e)
  let ch := (r.e &&& r.f) ^^^ ((compl32 r.e) &&& r.g)
  let temp1 := u32 (r.h + s1 + ch + ki + wi)
  let s0 := (rotr 2 r.a) ^^^ (rotr 13 r.a) ^^^ (rotr 22 r.a)
  let maj := (r.a &&& r.b) ^^^ (r.a &&& r.c) ^^^ (r.b &&& r.c)
  let temp2 := u32 (s0 + maj)
  ⟨u32 (temp1 + temp2), r.a, r.b, r.c, u32 (r.d + temp1), r.e, r.f, r.g⟩

/-- Extend a 16-word block schedule by `n` further words. -/
def extendSchedule : List Nat → Nat → List Nat
  | w, 0 => w
  | w, n + 1 =>
    let i := w.length
    let w15 := w.getD (i - 15) 0
    let s0 := (rotr 7 w15) ^^^ (rotr 18 w15) ^^^ (w15 >>> 3)
    let w2 := w.getD (i - 2) 0
    let s1 := (rotr 17 w2) ^^^ (rotr 19 w2) ^^^ (w2 >>> 10)
    extendSchedule (w ++ [u32 (w.getD (i - 16) 0 + s0 + w.getD (i - 7) 0 + s1)]) n

/-- Compress one 512-bit block (given as 16 words) into the running state. -/
def compressBlock (r0 : Regs) (block : List Nat) : Regs :=
  let w := extendSchedule block 48
  let r := (w.zip roundConsts).foldl (fun r p => round r p.1 p.2) r0
  ⟨u32 (r0.a + r.a), u32 (r0.b + r.b), u32 (r0.c + r.c), u32 (r0.d + r.d),
   u32 (r0.e + r.e), u32 (r0.f + r.f), u32 (r0.g + r.g), u32 (r0.h + r.h)⟩

/-- UTF-8 encoding of one Unicode code point. -/
def encodeCharUtf8 (c : Nat) : List Nat :=
  if c < 0x80 then [c]
  else if c < 0x800 then
    [0xC0 ||| (c >>> 6), 0x80 ||| (c &&& 0x3F)]
  else if c < 0x10000 then
    [0xE0 ||| (c >>> 12), 0x80 ||| ((c >>> 6) &&& 0x3F), 0x80 ||| (c &&& 0x3F)]
  else
    [0xF0 ||| (c >>> 18), 0x80 ||| ((c >>> 12) &&& 0x3F),
     0x80 ||| ((c >>> 6) &&& 0x3F), 0x80 ||| (c &&& 0x3F)]

/-- UTF-8 bytes of a string, matching Node's default string encoding. -/
def utf8Bytes (s : String) : List Nat :=
  (s.data.map Char.toNat).foldr (fun c acc => encodeCharUtf8 c ++ acc) []

/-- The 8-byte big-endian bit-length trailer of the padding. -/
def lengthBytes (bitLen : Nat) : List Nat :=
  (List.range 8).map fun i => (bitLen >>> (56 - 8 * i)) % 256

/-- FIPS 180-4 message padding: `1` bit, zeros to 56 mod 64, 64-bit length. -/
def padMessage (bytes : List Nat) : List Nat :=
  let len := bytes.length
  let zeros := (64 + 56 - ((len + 1) % 64)) % 64
  bytes ++ [0x80] ++ List.replicate zeros 0 ++ lengthBytes (len * 8)

/-- Group bytes into big-endian 32-bit words (input length a multiple of 4). -/
def bytesToWords : List Nat → List Nat
  | b0 :: b1 :: b2 :: b3 :: rest =>
    (b3 + 256 * (b2 + 256 * (b1 + 256 * b0))) :: bytesToWords rest
  | _ => []

/-- Split a word list into 16-word blocks (fueled, structurally recursive). -/
def chunk16F : Nat → List Nat → List (List Nat)
  | 0, _ => []
  | _, [] => []
  | fuel + 1, w => w.take 16 :: chunk16F fuel (w.drop 16)

/-- Split a word list into 16-word blocks. -/
def chunk16 (w : List Nat) : List (List Nat) := chunk16F w.length w

/-- One lowercase hex digit. -/
def hexDigit (n : Nat) : Char :=
  if n < 10 then Char.ofNat (48 + n) else Char.ofNat (87 + n)

/-- A 32-bit word as 8 lowercase hex characters. -/
def wordHex (w : Nat) : String :=
  String.mk ((List.range 8).map fun i => hexDigit ((w >>> (28 - 4 * i)) % 16))

/-- SHA-256 of a string, as the 64-character lowercase hex digest: the model of
`createHash("sha256").update(content).digest("hex")`. -/
def sha256Hex (s : String) : String :=
  let blocks := chunk16 (bytesToWords (padMessage (utf8Bytes s)))
  let r := blocks.foldl compressBlock initRegs
  wordHex r.a ++ wordHex r.b ++ wordHex r.c ++ wordHex r.d ++
    wordHex r.e ++ wordHex r.f ++ wordHex r.g ++ wordHex r.h

end Sha256

/-! ## JSON values and `JSON.stringify` -/

/-- A JSON value; `toolParams` and `metadata` are open `Record<string, unknown>`
maps in the source, modelled as arbitrary JSON (numbers restricted to the
integers the claims exercise). -/
inductive Json where
  | null
  | bool (b : Bool)
  | num (n : Int)
  | str (s : String)
  | arr (elems : List Json)
  | obj (fields : List (String × Json))

/-- `JSON.stringify` escaping of one character. -/
def escapeChar (c : Char) : String :=
  if c = '"' then "\\\""
  else if c = '\\' then "\\\\"
  else if c.toNat = 8 then "\\b"
  else if c.toNat = 9 then "\\t"
  else if c.toNat = 10 then "\\n"
  else if c.toNat = 12 then "\\f"
  else if c.toNat = 13 then "\\r"
  else if c.toNat < 32 then
    "\\u00" ++ String.mk [Sha256.hexDigit (c.toNat / 16), Sha256.hexDigit (c.toNat % 16)]
  else String.mk [c]

/-- `JSON.stringify` escaping of a string body. -/
def jsonEscape (s : String) : String :=
  s.data.foldl (fun acc c => acc ++ escapeChar c) ""

mutual

/-- The model of `JSON.stringify` (no spacing, keys in insertion order,
which is what the Node default produces). -/
def Json.render : Json → String
  | .null => "null"
  | .bool b => if b then "true" else "false"
  | .num n => toString n
  | .str s => "\"" ++ jsonEscape s ++ "\""
  | .arr xs => "[" ++ renderElems xs ++ "]"
  | .obj fs => "\x7b" ++ renderFields fs ++ "\x7d"

/-- Comma-joined rendering of array elements. -/
def renderElems : List Json → String
  | [] => ""
  | [x] => Json.render x
  | x :: rest => Json.render x ++ "," ++ renderElems rest

/-- Comma-joined rendering of object fields. -/
def renderFields : List (String × Json) → String
  | [] => ""
  | [(k, v)] => "\"" ++ jsonEscape k ++ "\":" ++ Json.render v
  | (k, v) :: rest =>
    "\"" ++ jsonEscape k ++ "\":" ++ Json.render v ++ "," ++ renderFields rest

end

/-! ## The action data model (`src/lib/health.ts`, store document) -/

/-- `"critical" | "high" | "medium" | "low"`. -/
inductive Severity where
  | critical
  | high
  | medium
  | low
deriving DecidableEq

/-- The string a severity serializes as. -/
def Severity.asString : Severity → String
  | .critical => "critical"
  | .high => "high"
  | .medium => "medium"
  | .low => "low"

/-- The `ActionEntry` envelope handed to `logAction` (fields in interface
order, which is the serialization key order). -/
structure ActionEntry where
  id : String
  timestamp : String
  type : String
  severity : Severity
  platform : String
  description : String
  toolName : Option String := none
  toolParams : Option Json := none
  sessionId : Option String := none
  resumedFrom : Option String := none
  parentActionId : Option String := none
  metadata : Option Json := none

/-- The `_integrity` object `{hash, previous}`. -/
structure Integrity where
  hash : String
  previous : String
deriving DecidableEq

/-- `StoredAction extends ActionEntry` with `sequence` and optional
`_integrity` (field named `integrity` here). -/
structure StoredAction extends ActionEntry where
  sequence : Nat
  integrity : Option Integrity := none

/-- `[(k, str v)]` when the optional string field is present, else omitted
(serialization drops `undefined` members, as `JSON.stringify` does). -/
def optStrField (k : String) (v : Option String) : List (String × Json) :=
  match v with
  | none => []
  | some s => [(k, .str s)]

/-- `[(k, v)]` when the optional JSON field is present, else omitted. -/
def optJsonField (k : String) (v : Option Json) : List (String × Json) :=
  match v with
  | none => []
  | some j => [(k, j)]

/-- The JSON fields of the plain envelope, in interface order. -/
def ActionEntry.jsonFields (e : ActionEntry) : List (String × Json) :=
  [("id", .str e.id), ("timestamp", .str e.timestamp), ("type", .str e.type),
   ("severity", .str e.severity.asString), ("platform", .str e.platform),
   ("description", .str e.description)]
  ++ optStrField "toolName" e.toolName
  ++ optJsonField "toolParams" e.toolParams
  ++ optStrField "sessionId" e.sessionId
  ++ optStrField "resumedFrom" e.resumedFrom
  ++ optStrField "parentActionId" e.parentActionId
  ++ optJsonField "metadata" e.metadata

/-- A `StoredAction` as the JSON object the writer serializes: the spread
`{...entry, sequence}` puts `sequence` after the entry's fields, and
`{...actionForHash, _integrity}` puts `_integrity` last; an absent
`_integrity` is omitted. -/
def StoredAction.toJson (a : StoredAction) : Json :=
  .obj (a.toActionEntry.jsonFields
    ++ [("sequence", .num (a.sequence : Int))]
    ++ (match a.integrity with
        | none => []
        | some i =>
          [("_integrity",
            .obj [("hash", .str i.hash), ("previous", .str i.previous)])]))

/-- `JSON.stringify(action)` on a stored action. -/
def serializeAction (a : StoredAction) : String := Json.render a.toJson

/-- `{ a with _integrity stripped }`, the `const {_integrity, ...rest}`
destructuring both the store and the validator perform before hashing. -/
def stripIntegrity (a : StoredAction) : StoredAction := { a with integrity := none }

/-- JS string truthiness on a `string | null | undefined` value:
`null`/`undefined` and `""` are falsy. -/
def jsStrTruthy : Option String → Bool
  | none => false
  | some s => !(s == "")

/-- `x || "genesis"` on a nullable string, exactly as JS evaluates it. -/
def jsOrGenesis (x : Option String) : String :=
  match x with
  | none => "genesis"
  | some s => if s = "" then "genesis" else s

/-! ## The stream writer state machine (`ContinuityStore`) -/

/-- `"off" | "judgment" | "everything"`. -/
inductive LogLevel where
  | off
  | judgment
  | everything
deriving DecidableEq

/-- The `ContinuityConfig` the store is constructed with. -/
structure ContinuityConfig where
  logLevel : LogLevel
  storagePath : String
  enableIntegrityCheck : Bool
  enablePreCompactionCheckpoint : Bool
  blockOnPersistenceFailure : Bool
  maxBackupFiles : Nat
  criticalToolPatterns : List String
  implicitResumeThresholdMinutes : Option Nat := none

/-- The persisted/in-memory `StreamState {sequence, lastHash}`. -/
structure StreamState where
  sequence : Nat
  lastHash : Option String
deriving DecidableEq

/-- The mutable instance fields of `ContinuityStore`. -/
structure StoreData where
  state : StreamState
  currentStreamPath : Option String
  emergencyMode : Bool
  initialized : Bool
deriving DecidableEq

/-- A freshly constructed store: `state = {sequence: 0, lastHash: null}`,
no current path, emergency mode off, not initialized. -/
def StoreData.fresh : StoreData :=
  ⟨⟨0, none⟩, none, false, false⟩

/-- The stream-file header object `{_header, schema_version, created,
integrity_enabled}` written by `writeStreamHeader`. -/
structure StreamHeader where
  created : String
  integrityEnabled : Bool
deriving DecidableEq

/-- The header as the JSON object `writeStreamHeader` serializes. -/
def StreamHeader.toJson (h : StreamHeader) : Json :=
  .obj [("_header", .bool true), ("schema_version", .str "1.0.0"),
        ("created", .str h.created), ("integrity_enabled", .bool h.integrityEnabled)]

/-- The emergency envelope `{...entry, _emergency: true, _emergency_timestamp}`
written by `logToEmergency`. -/
structure EmergencyEntry extends ActionEntry where
  emergencyFlag : Bool
  emergencyTimestamp : String

/-- One write the store performs against the filesystem. -/
inductive WriteEvent where
  | headerWrite (path : String) (h : StreamHeader)
  | lineWrite (path : String) (a : StoredAction)
  | emergencyWrite (e : EmergencyEntry)

/-- Outcome of `logAction`: a returned boolean, or a propagated exception. -/
inductive LogResult where
  | ret (b : Bool)
  | raised
deriving DecidableEq

/-- The outcomes of the filesystem calls one `logAction` invocation makes.
`hasSpace` is the `checkDiskSpace` result (`true` also when `statfs` fails,
since the source then assumes space); `todayPath` is `getTodayStreamPath()`;
`headerWriteOk` is whether the rotation-path `writeStreamHeader` (exclusive
`wx` create) succeeds; `appendOk`/`syncOk` are the primary
`appendFile` / `open+sync+close` calls; `emergencyWriteOk` is the emergency
`appendFile`; `nowIso` is `new Date().toISOString()`. -/
structure FsOracle where
  hasSpace : Bool
  todayPath : String
  headerWriteOk : Bool
  appendOk : Bool
  syncOk : Bool
  emergencyWriteOk : Bool
  nowIso : String

namespace ContinuityStore

/-- `calculateHash(action, previous) = sha256(JSON.stringify(action) + previous)`
in hex; the caller passes the action already stripped of `_integrity`. -/
def calculateHash (action : StoredAction) (previous : String) : String :=
  Sha256.sha256Hex (serializeAction action ++ previous)

/-- `buildStoredAction`: assign `sequence = state.sequence + 1`; when integrity
checking is on, hash the integrity-free action against
`state.lastHash || "genesis"` and attach `_integrity`. -/
def buildStoredAction (cfg : ContinuityConfig) (st : StreamState)
    (entry : ActionEntry) : StoredAction :=
  let sequence := st.sequence + 1
  let actionForHash : StoredAction :=
    { toActionEntry := entry, sequence := sequence, integrity := none }
  if cfg.enableIntegrityCheck then
    let previousHash := jsOrGenesis st.lastHash
    let hash := calculateHash actionForHash previousHash
    { actionForHash with integrity := some ⟨hash, previousHash⟩ }
  else
    actionForHash

/-- `logToEmergency`: append the augmented envelope to
`EMERGENCY_RECOVERY.jsonl`; return true iff that write succeeds (the source
catches the failure and returns false). -/
def logToEmergency (o : FsOracle) (entry : ActionEntry) : Bool × List WriteEvent :=
  if o.emergencyWriteOk then
    (true, [.emergencyWrite ⟨entry, true, o.nowIso⟩])
  else
    (false, [])

/-- `logAction`, as a transition on the store's mutable fields. Returns the
outcome, the successor store, and the writes performed. Mirrors the source
branch for branch: `logLevel == off` short-circuits true; uninitialized
returns false; latched emergency mode routes to the emergency log; a failed
disk-space check latches emergency mode and routes; a changed day rotates
`currentStreamPath` and writes the new header — outside any try/catch, so a
failing exclusive-create propagates (`raised`); serialization of the built
action (total here) then the guarded append+fsync; on success the state
commits `sequence` and (with integrity on) `lastHash`; on append/fsync
failure the entry is routed to the emergency log without latching. -/
def logAction (cfg : ContinuityConfig) (s : StoreData) (entry : ActionEntry)
    (o : FsOracle) : LogResult × StoreData × List WriteEvent :=
  if cfg.logLevel = .off then
    (.ret true, s, [])
  else if ¬ s.initialized then
    (.ret false, s, [])
  else if s.emergencyMode then
    let (b, w) := logToEmergency o entry
    (.ret b, s, w)
  else if ¬ o.hasSpace then
    let s' : StoreData := { s with emergencyMode := true }
    let (b, w) := logToEmergency o entry
    (.ret b, s', w)
  else
    let rotate := some o.todayPath ≠ s.currentStreamPath
    let s1 : StoreData :=
      if rotate then { s with currentStreamPath := some o.todayPath } else s
    if rotate ∧ ¬ o.headerWriteOk then
      (.raised, s1, [])
    else
      let headerWrites : List WriteEvent :=
        if rotate then [.headerWrite o.todayPath ⟨o.nowIso, cfg.enableIntegrityCheck⟩]
        else []
      let storedAction := buildStoredAction cfg s.state entry
      if o.appendOk ∧ o.syncOk then
        let st1 : StreamState := { s1.state with sequence := storedAction.sequence }
        let st2 : StreamState :=
          match cfg.enableIntegrityCheck, storedAction.integrity with
          | true, some i => { st1 with lastHash := some i.hash }
          | _, _ => st1
        (.ret true, { s1 with state := st2 },
          headerWrites ++ [.lineWrite o.todayPath storedAction])
      else
        let lineWrites : List WriteEvent :=
          if o.appendOk then [.lineWrite o.todayPath storedAction] else []
        let (b, w) := logToEmergency o entry
        (.ret b, s1, headerWrites ++ lineWrites ++ w)

/-- `initialize` (named `initStore` here): idempotent; loads `.state.json`
(`stateFile`; `none` models missing or unparseable, falling back to
`{sequence: 0, lastHash: null}`), sets the current-day path, and writes the
header only when the day's stream file does not yet exist. -/
def initStore (cfg : ContinuityConfig) (s : StoreData)
    (stateFile : Option StreamState) (todayPath : String) (fileExists : Bool)
    (nowIso : String) : StoreData × List WriteEvent :=
  if s.initialized then
    (s, [])
  else
    let st := stateFile.getD ⟨0, none⟩
    let s' : StoreData :=
      { s with state := st, currentStreamPath := some todayPath, initialized := true }
    if fileExists then
      (s', [])
    else
      (s', [.headerWrite todayPath ⟨nowIso, cfg.enableIntegrityCheck⟩])

end ContinuityStore

/-- Run a sequence of `logAction` calls, collecting each call's outcome and
writes. -/
def runTrace (cfg : ContinuityConfig) :
    StoreData → List (ActionEntry × FsOracle) →
      StoreData × List (LogResult × List WriteEvent)
  | s, [] => (s, [])
  | s, (e, o) :: rest =>
    let (r, s', w) := ContinuityStore.logAction cfg s e o
    let (sF, outs) := runTrace cfg s' rest
    (sF, (r, w) :: outs)

/-- The stored actions a call's writes appended to the chained stream. -/
def linesOf (w : List WriteEvent) : List StoredAction :=
  w.filterMap fun ev =>
    match ev with
    | .lineWrite _ a => some a
    | _ => none

/-- The stored actions a whole trace appended to the chained stream. -/
def writtenActions (outs : List (LogResult × List WriteEvent)) : List StoredAction :=
  outs.foldr (fun rw acc => linesOf rw.2 ++ acc) []

/-! ## The integrity validator (`src/unnamed/part_001`) -/

/-- The `IntegrityError.type` tags. -/
inductive ErrKind where
  | hash_mismatch
  | chain_break
  | invalid_json
  | missing_integrity
deriving DecidableEq

/-- An `IntegrityError {sequence, type, details}` (`type` named `kind`). -/
structure IntegrityError where
  sequence : Nat
  kind : ErrKind
  details : String
deriving DecidableEq

/-- The `IntegrityReport` returned by `validateStream`. -/
structure IntegrityReport where
  valid : Bool
  totalChecked : Nat
  errors : List IntegrityError
  firstAction : Option String
  lastAction : Option String
deriving DecidableEq

/-- One line of a stream file, as the validator's reader sees it: the header
line (skipped by the `"_header":true` substring test), a line parsing to a
stored action, or an unparseable line. -/
inductive StreamLine where
  | headerLine
  | actionLine (a : StoredAction)
  | invalidLine

namespace IntegrityValidator

/-- The validator's private `calculateHash` — textually the same rule as the
store's: `sha256(JSON.stringify(action) + previous)` in hex. -/
def calculateHash (action : StoredAction) (previous : String) : String :=
  Sha256.sha256Hex (serializeAction action ++ previous)

/-- `validateAction(action, previousHash)`: no `_integrity` means nothing to
verify; a `previous` differing from `previousHash || "genesis"` is a
`chain_break`; otherwise a recomputed hash differing from the stored one is a
`hash_mismatch`. -/
def validateAction (a : StoredAction) (previousHash : Option String) :
    Option IntegrityError :=
  match a.integrity with
  | none => none
  | some integ =>
    let expectedPrevious := jsOrGenesis previousHash
    if integ.previous ≠ expectedPrevious then
      some ⟨a.sequence, .chain_break,
        "Expected previous hash " ++ expectedPrevious ++ ", found " ++ integ.previous⟩
    else
      let calculated := calculateHash (stripIntegrity a) integ.previous
      if calculated ≠ integ.hash then
        some ⟨a.sequence, .hash_mismatch,
          "Hash mismatch: calculated " ++ calculated ++ ", stored " ++ integ.hash⟩
      else
        none

/-- The `validateStream` loop state. -/
structure ValState where
  totalChecked : Nat
  errors : List IntegrityError
  previousHash : Option String
  firstAction : Option String
  lastAction : Option String

/-- The initial loop state. -/
def ValState.init : ValState := ⟨0, [], none, none, none⟩

/-- Processing one line of a stream file, exactly in source order: skip
headers; on parse failure record `invalid_json` at `totalChecked + 1`;
otherwise bump `totalChecked`, update `firstAction` (JS-falsy test) and
`lastAction`, run `validateAction` against the rolling `previousHash`, and
advance `previousHash` to the *stored* hash when `_integrity` is present. -/
def valStep (v : ValState) : StreamLine → ValState
  | .headerLine => v
  | .invalidLine =>
    { v with errors := v.errors ++ [⟨v.totalChecked + 1, .invalid_json, "Failed to parse"⟩] }
  | .actionLine a =>
    let checked := v.totalChecked + 1
    let first := if jsStrTruthy v.firstAction then v.firstAction else some a.id
    let last := some a.id
    let errs :=
      match validateAction a v.previousHash with
      | some e => v.errors ++ [e]
      | none => v.errors
    let prev :=
      match a.integrity with
      | some i => some i.hash
      | none => v.previousHash
    ⟨checked, errs, prev, first, last⟩

/-- Fold the validator over the lines of one file. -/
def valFile (v : ValState) (file : List StreamLine) : ValState :=
  file.foldl valStep v

/-- `validateStream` over the stream files in lexical order (files assumed
readable; an unreadable file only adds a file-level `invalid_json` error,
which none of the claims exercise). `valid` iff no errors accumulated. -/
def validateStream (files : List (List StreamLine)) : IntegrityReport :=
  let v := files.foldl valFile ValState.init
  ⟨v.errors.isEmpty, v.totalChecked, v.errors, v.firstAction, v.lastAction⟩

end IntegrityValidator

/-! ## The session restorer (`src/unnamed/part_000`) -/

/-- A JS number that is either finite or `Infinity`, for `gapMinutes`. -/
inductive JsNumber where
  | fin (q : ℚ)
  | inf
deriving DecidableEq

/-- The summary `getRecentActivitySummary` returns. -/
structure RecentContext where
  period : String
  totalActions : Nat
  sessions : List String
  highlights : List String

/-- The `ImplicitResumptionResult` record. -/
structure ImplicitResumptionResult where
  shouldRestore : Bool
  lastActivityTime : String
  gapMinutes : JsNumber
  thresholdMinutes : ℚ
  recentContext : Option RecentContext

namespace SessionRestorer

/-- `detectImplicitResumption(thresholdMinutes)`. `summary` models
`getRecentActivitySummary` (a store query) as a function of its `hoursBack`
argument; `lastActivity` is `getLastActionTime()` paired with the millisecond
value `new Date(ts).getTime()` parses it to (the source normalizes a missing
or empty timestamp to `null` before the call, and `!lastActivityTime` is the
same test); `now` is `Date.now()` in milliseconds. Times are exact rationals:
`gapMinutes = (now - lastTime) / 60000`. -/
def detectImplicitResumption (summary : ℚ → RecentContext)
    (lastActivity : Option (String × Int)) (now : Int)
    (thresholdMinutes : ℚ) : ImplicitResumptionResult :=
  match lastActivity with
  | none =>
    { shouldRestore := false, lastActivityTime := "", gapMinutes := .inf,
      thresholdMinutes := thresholdMinutes, recentContext := none }
  | some (ts, lastTime) =>
    let gapMinutes : ℚ := ((now - lastTime : Int) : ℚ) / 60000
    if gapMinutes < thresholdMinutes then
      { shouldRestore := true, lastActivityTime := ts, gapMinutes := .fin gapMinutes,
        thresholdMinutes := thresholdMinutes, recentContext := some (summary 1) }
    else
      { shouldRestore := false, lastActivityTime := ts, gapMinutes := .fin gapMinutes,
        thresholdMinutes := thresholdMinutes, recentContext := none }

end SessionRestorer

/-! ## `getRecentActions` (`src/lib/health.ts`, store document) -/

namespace ContinuityStore

/-- The tail-first scan of `getRecentActions`: walk the (already reversed)
nonblank lines, prepending each line that `JSON.parse` accepts (`none` models
a line the `catch` skips), while fewer than `limit` results are collected —
the loop guard `actions.length < limit` is re-checked before every line. The
element type is abstract because the source casts blindly. -/
def recentGo {α : Type} (limit : Nat) : List (Option α) → List α → List α
  | [], acc => acc
  | l :: rest, acc =>
    if acc.length < limit then
      match l with
      | some a => recentGo limit rest (a :: acc)
      | none => recentGo limit rest acc
    else
      acc

/-- `getRecentActions(limit)` over the current day's nonblank lines, in file
order; returns up to `limit` parseable entries, most recent ones, in forward
order. -/
def getRecentActions {α : Type} (limit : Nat) (lines : List (Option α)) : List α :=
  recentGo limit lines.reverse []

end ContinuityStore

/-! ## Derived observations on traces -/

/-- Whether a `logAction` outcome is the returned boolean `true`. -/
def resultTrue : LogResult → Bool
  | .ret true => true
  | _ => false

/-- Whether a write is an append to the chained stream. -/
def WriteEvent.isLine : WriteEvent → Bool
  | .lineWrite _ _ => true
  | _ => false

/-- Whether a write is an append to `EMERGENCY_RECOVERY.jsonl`. -/
def WriteEvent.isEmergency : WriteEvent → Bool
  | .emergencyWrite _ => true
  | _ => false

/-- A call was a successful non-emergency append: it returned `true` having
appended its entry to the chained stream, with nothing routed to the
emergency log. -/
def isPrimarySuccess (rw : LogResult × List WriteEvent) : Bool :=
  resultTrue rw.1 && rw.2.any WriteEvent.isLine && !(rw.2.any WriteEvent.isEmergency)

/-- The sequence numbers assigned by the successful non-emergency appends of a
trace, in append order. -/
def successSeqs : List (LogResult × List WriteEvent) → List Nat
  | [] => []
  | rw :: rest =>
    (if isPrimarySuccess rw then (linesOf rw.2).map (·.sequence) else [])
      ++ successSeqs rest

/-- The number of successful non-emergency appends in a trace. -/
def primCount : List (LogResult × List WriteEvent) → Nat
  | [] => 0
  | rw :: rest => (if isPrimarySuccess rw then 1 else 0) + primCount rest

/-- All writes of a trace, in order. -/
def traceWrites (outs : List (LogResult × List WriteEvent)) : List WriteEvent :=
  outs.foldr (fun rw acc => rw.2 ++ acc) []

/-- The stream line a write contributes to the file at `path`, if any. -/
def WriteEvent.toLine (path : String) : WriteEvent → Option StreamLine
  | .headerWrite q _ => if q = path then some .headerLine else none
  | .lineWrite q a => if q = path then some (.actionLine a) else none
  | .emergencyWrite _ => none

/-- The contents of the stream file at `path` after a list of writes. -/
def streamFileLines (path : String) (ws : List WriteEvent) : List StreamLine :=
  ws.filterMap (·.toLine path)

/-- An oracle under which every filesystem call succeeds, the disk has space,
and the wall clock stays on the day of stream file `p`. -/
def goodOracle (p : String) : FsOracle :=
  ⟨true, p, true, true, true, true, "T"⟩

/-- The state commit the success branch of `logAction` performs (lines
400-404 of the store): `state.sequence = storedAction.sequence`, and with
integrity checking on and `_integrity` present,
`state.lastHash = storedAction._integrity.hash`. -/
def commitState (cfg : ContinuityConfig) (st : StreamState) (a : StoredAction) :
    StreamState :=
  let st1 : StreamState := { st with sequence := a.sequence }
  match cfg.enableIntegrityCheck, a.integrity with
  | true, some i => { st1 with lastHash := some i.hash }
  | _, _ => st1

/-- The pure chain builder: the stored actions and final state a run of
successful primary appends produces (proved below to coincide with
`runTrace` under an all-good oracle). -/
def buildChain (cfg : ContinuityConfig) :
    StreamState → List ActionEntry → StreamState × List StoredAction
  | st, [] => (st, [])
  | st, e :: es =>
    let a := ContinuityStore.buildStoredAction cfg st e
    let (stF, rest) := buildChain cfg (commitState cfg st a) es
    (stF, a :: rest)

/-- The hash-chain shape claim P3 describes: the first entry's `previous` is
the given anchor, every entry carries `_integrity`, and each subsequent
entry's `previous` is its predecessor's `hash`. -/
def chainFrom : String → List StoredAction → Prop
  | _, [] => True
  | prev, a :: rest => ∃ h, a.integrity = some ⟨h, prev⟩ ∧ chainFrom h rest

/-- The crash-recovery scenario of claim C4 / property P4: a fresh directory,
`initialize`, `N = es.length` successful appends, a kill with `close()` never
called (so `.state.json` was never written), then a fresh process
re-`initialize`s over the same path (state file still absent, stream file
present) and appends one more entry; finally `validateStream` reads the
file. -/
def crashScenario (cfg : ContinuityConfig) (p : String) (es : List ActionEntry)
    (e' : ActionEntry) : IntegrityReport :=
  let (s1, w1) := ContinuityStore.initStore cfg .fresh none p false "T0"
  let (_, outs) := runTrace cfg s1 (es.map fun e => (e, goodOracle p))
  let (s3, w3) := ContinuityStore.initStore cfg .fresh none p true "T1"
  let (_, _, w4) := ContinuityStore.logAction cfg s3 e' (goodOracle p)
  IntegrityValidator.validateStream
    [streamFileLines p (w1 ++ traceWrites outs ++ w3 ++ w4)]

/-- The tamper scenario of claim C5: three successful integrity-enabled
appends into a fresh stream, then the second stored line's `description` is
replaced by `"tampered"` with its stored `_integrity` left unchanged, and
`validateStream` reads the file. -/
def tamperedReport (cfg : ContinuityConfig) (p : String)
    (e1 e2 e3 : ActionEntry) : IntegrityReport :=
  let (s1, _) := ContinuityStore.initStore cfg .fresh none p false "T0"
  let (_, outs) :=
    runTrace cfg s1 [(e1, goodOracle p), (e2, goodOracle p), (e3, goodOracle p)]
  match writtenActions outs with
  | [a1, a2, a3] =>
    IntegrityValidator.validateStream
      [[.headerLine, .actionLine a1,
        .actionLine { a2 with description := "tampered" }, .actionLine a3]]
  | _ => IntegrityValidator.validateStream []

/-! ## Concrete fixtures for witnesses and counterexamples -/

/-- A config with integrity checking on. -/
def cfgOn : ContinuityConfig :=
  ⟨.everything, "/s", true, true, false, 5, [], none⟩

/-- A config with integrity checking off (used where hashing is irrelevant,
keeping kernel evaluation light). -/
def cfgOff : ContinuityConfig :=
  ⟨.everything, "/s", false, true, false, 5, [], none⟩

/-- A minimal action entry. -/
def entA : ActionEntry :=
  { id := "a", timestamp := "t1", type := "x", severity := .low,
    platform := "p", description := "d" }

/-- A second minimal action entry. -/
def entB : ActionEntry :=
  { id := "b", timestamp := "t2", type := "x", severity := .low,
    platform := "p", description := "d" }

/-- A third minimal action entry. -/
def entC : ActionEntry :=
  { id := "c", timestamp := "t3", type := "x", severity := .low,
    platform := "p", description := "d" }

/-- An initialized store over stream path `"A"` with fresh state. -/
def storeA : StoreData :=
  ⟨⟨0, none⟩, some "A", false, true⟩

/-- An oracle for a failing primary append (disk has space, no rotation
against `storeA`, `appendFile` rejects, emergency append succeeds). -/
def oracleAppendFail : FsOracle :=
  ⟨true, "A", true, false, false, true, "T"⟩

/-- An oracle observing a day change to `"B"` where the new day's file
already exists, so the exclusive-create header write rejects. -/
def oracleRotateExists : FsOracle :=
  ⟨true, "B", false, true, true, true, "T"⟩

/-- A constant stand-in for `getRecentActivitySummary` in witnesses. -/
def summaryW : ℚ → RecentContext :=
  fun _ => ⟨"", 0, [], []⟩

/-! ## Basic facts about the model -/

/-- Test vector anchoring the model to real SHA-256: the empty string. -/
theorem sha256Hex_empty :
    Sha256.sha256Hex "" =
      "e3b0c44298fc1c149afbf4c8996fb92427ae41e4649b934ca495991b7852b855" := by
  decide

/-- Test vector anchoring the model to real SHA-256: `"abc"`. -/
theorem sha256Hex_abc :
    Sha256.sha256Hex "abc" =
      "ba7816bf8f01cfea414140de5dae2223b00361a396177a9cb410ff61f20015ad" := by
  decide

/-- A word renders as exactly 8 hex characters. -/
theorem wordHex_length (w : Nat) : (Sha256.wordHex w).length = 8 := by
  simp [Sha256.wordHex, String.length]

/-- Every digest is 64 characters long. -/
theorem sha256Hex_length (s : String) : (Sha256.sha256Hex s).length = 64 := by
  simp [Sha256.sha256Hex, String.length_append, wordHex_length]

/-- A digest is never the empty string. -/
theorem sha256Hex_ne_empty (s : String) : Sha256.sha256Hex s ≠ "" := by
  intro h
  have := congrArg String.length h
  rw [sha256Hex_length] at this
  simp at this

/-- A digest is never the literal `"genesis"`. -/
theorem sha256Hex_ne_genesis (s : String) : Sha256.sha256Hex s ≠ "genesis" := by
  intro h
  have := congrArg String.length h
  rw [sha256Hex_length] at this
  simp [String.length] at this

/-- `x || "genesis"` on a null value is `"genesis"`. -/
theorem jsOrGenesis_none : jsOrGenesis none = "genesis" := rfl

/-- `x || "genesis"` on a present digest is the digest itself. -/
theorem jsOrGenesis_hash (s : String) :
    jsOrGenesis (some (Sha256.sha256Hex s)) = Sha256.sha256Hex s := by
  simp [jsOrGenesis, sha256Hex_ne_empty s]

/-- `buildStoredAction` always assigns `sequence = state.sequence + 1`. -/
theorem buildStoredAction_sequence (cfg : ContinuityConfig) (st : StreamState)
    (e : ActionEntry) :
    (ContinuityStore.buildStoredAction cfg st e).sequence = st.sequence + 1 := by
  unfold ContinuityStore.buildStoredAction
  split <;> rfl

/-- With integrity checking on, `buildStoredAction` attaches `_integrity`
containing the hash of the integrity-free action against
`state.lastHash || "genesis"`. -/
theorem buildStoredAction_on (cfg : ContinuityConfig) (st : StreamState)
    (e : ActionEntry) (hI : cfg.enableIntegrityCheck = true) :
    ContinuityStore.buildStoredAction cfg st e =
      { toActionEntry := e, sequence := st.sequence + 1,
        integrity := some
          ⟨ContinuityStore.calculateHash ⟨e, st.sequence + 1, none⟩
              (jsOrGenesis st.lastHash),
            jsOrGenesis st.lastHash⟩ } := by
  simp [ContinuityStore.buildStoredAction, hI]

/-- Committing a stored action sets `state.sequence` to its sequence. -/
theorem commitState_sequence (cfg : ContinuityConfig) (st : StreamState)
    (a : StoredAction) : (commitState cfg st a).sequence = a.sequence := by
  unfold commitState
  split <;> rfl

/-- With integrity on, committing a hash-carrying action advances
`state.lastHash` to its stored hash. -/
theorem commitState_lastHash (cfg : ContinuityConfig) (st : StreamState)
    (a : StoredAction) (i : Integrity) (hI : cfg.enableIntegrityCheck = true)
    (ha : a.integrity = some i) :
    (commitState cfg st a).lastHash = some i.hash := by
  simp [commitState, hI, ha]

/-- Under an all-good oracle with no day change, `logAction` takes exactly the
success path: it returns `true`, commits the built action's sequence and hash
into the state, and appends one line. -/
theorem logAction_good (cfg : ContinuityConfig) (s : StoreData) (e : ActionEntry)
    (o : FsOracle) (hL : cfg.logLevel ≠ .off) (hInit : s.initialized = true)
    (hEm : s.emergencyMode = false) (hPath : s.currentStreamPath = some o.todayPath)
    (hSp : o.hasSpace = true) (hAp : o.appendOk = true) (hSy : o.syncOk = true) :
    ContinuityStore.logAction cfg s e o =
      (.ret true,
        { s with state :=
            commitState cfg s.state (ContinuityStore.buildStoredAction cfg s.state e) },
        [.lineWrite o.todayPath (ContinuityStore.buildStoredAction cfg s.state e)]) := by
  simp [ContinuityStore.logAction, hL, hInit, hEm, hPath, hSp, hAp, hSy, commitState]

/-- Every `logAction` call either is a successful non-emergency append — and
then advances `state.sequence` by one and appends exactly one line bearing the
new sequence — or is not, and then leaves `state.sequence` unchanged. -/
theorem logAction_step (cfg : ContinuityConfig) (s : StoreData) (e : ActionEntry)
    (o : FsOracle) :
    (isPrimarySuccess ((ContinuityStore.logAction cfg s e o).1,
        (ContinuityStore.logAction cfg s e o).2.2) = true
      ∧ (ContinuityStore.logAction cfg s e o).2.1.state.sequence = s.state.sequence + 1
      ∧ (linesOf (ContinuityStore.logAction cfg s e o).2.2).map (·.sequence)
          = [s.state.sequence + 1])
    ∨ (isPrimarySuccess ((ContinuityStore.logAction cfg s e o).1,
        (ContinuityStore.logAction cfg s e o).2.2) = false
      ∧ (ContinuityStore.logAction cfg s e o).2.1.state.sequence = s.state.sequence) := by
  unfold ContinuityStore.logAction ContinuityStore.logToEmergency
  by_cases hoff : cfg.logLevel = .off
  · right
    simp [hoff, isPrimarySuccess, resultTrue]
  by_cases hinit : s.initialized
  case neg =>
    right
    simp [hoff, hinit, isPrimarySuccess, resultTrue]
  by_cases hem : s.emergencyMode
  · right
    by_cases hew : o.emergencyWriteOk <;>
      simp [hoff, hinit, hem, hew, isPrimarySuccess, resultTrue, WriteEvent.isLine]
  by_cases hsp : o.hasSpace
  case neg =>
    right
    by_cases hew : o.emergencyWriteOk <;>
      simp [hoff, hinit, hem, hsp, hew, isPrimarySuccess, resultTrue, WriteEvent.isLine]
  by_cases hrot : some o.todayPath ≠ s.currentStreamPath
  · by_cases hhd : o.headerWriteOk
    case neg =>
      right
      simp [hoff, hinit, hem, hsp, hrot, hhd, isPrimarySuccess, resultTrue]
    by_cases hap : o.appendOk
    · by_cases hsy : o.syncOk
      · left
        simp [hoff, hinit, hem, hsp, hrot, hhd, hap, hsy, isPrimarySuccess, resultTrue,
          WriteEvent.isLine, WriteEvent.isEmergency, linesOf, commitState_sequence,
          buildStoredAction_sequence]
        split <;> rfl
      · right
        by_cases hew : o.emergencyWriteOk <;>
          simp [hoff, hinit, hem, hsp, hrot, hhd, hap, hsy, hew, isPrimarySuccess,
            resultTrue, WriteEvent.isLine, WriteEvent.isEmergency]
    · right
      by_cases hew : o.emergencyWriteOk <;>
        simp [hoff, hinit, hem, hsp, hrot, hhd, hap, hew, isPrimarySuccess,
          resultTrue, WriteEvent.isLine, WriteEvent.isEmergency]
  · by_cases hap : o.appendOk
    · by_cases hsy : o.syncOk
      · left
        simp [hoff, hinit, hem, hsp, hrot, hap, hsy, isPrimarySuccess, resultTrue,
          WriteEvent.isLine, WriteEvent.isEmergency, linesOf, commitState_sequence,
          buildStoredAction_sequence]
        split <;> rfl
      · right
        by_cases hew : o.emergencyWriteOk <;>
          simp [hoff, hinit, hem, hsp, hrot, hap, hsy, hew, isPrimarySuccess,
            resultTrue, WriteEvent.isLine, WriteEvent.isEmergency]
    · right
      by_cases hew : o.emergencyWriteOk <;>
        simp [hoff, hinit, hem, hsp, hrot, hap, hew, isPrimarySuccess,
          resultTrue, WriteEvent.isLine, WriteEvent.isEmergency]



/-- Trace induction for sequence contiguity: from any starting sequence `k`,
the successful non-emergency appends of a trace are numbered
`k+1, k+2, …, k+N` in order, and the final state's sequence is `k + N`. -/
theorem runTrace_seqs (cfg : ContinuityConfig) :
    ∀ (trace : List (ActionEntry × FsOracle)) (s : StoreData),
      successSeqs (runTrace cfg s trace).2
          = List.range' (s.state.sequence + 1) (primCount (runTrace cfg s trace).2)
        ∧ (runTrace cfg s trace).1.state.sequence
          = s.state.sequence + primCount (runTrace cfg s trace).2
  | [], s => by simp [runTrace, successSeqs, primCount]
  | (e, o) :: rest, s => by
    rcases hLA : ContinuityStore.logAction cfg s e o with ⟨r, s', w⟩
    have ih := runTrace_seqs cfg rest s'
    rcases hRT : runTrace cfg s' rest with ⟨sF, outs⟩
    rw [hRT] at ih
    simp only at ih
    have hstep := logAction_step cfg s e o
    rw [hLA] at hstep
    simp only at hstep
    simp only [runTrace, hLA, hRT]
    rcases hstep with ⟨hp, hseq, hlines⟩ | ⟨hp, hseq⟩
    · have h1 : successSeqs ((r, w) :: outs)
          = (linesOf w).map (·.sequence) ++ successSeqs outs := by
        simp [successSeqs, hp]
      have h2 : primCount ((r, w) :: outs) = 1 + primCount outs := by
        simp [primCount, hp]
      have hseqF := ih.2
      constructor
      · rw [h1, h2, hlines, ih.1, hseq, Nat.add_comm 1 (primCount outs),
          List.range'_succ]
        rfl
      · rw [h2]
        omega
    · have h1 : successSeqs ((r, w) :: outs) = successSeqs outs := by
        simp [successSeqs, hp]
      have h2 : primCount ((r, w) :: outs) = primCount outs := by
        simp [primCount, hp]
      have hseqF := ih.2
      constructor
      · rw [h1, h2, ih.1, hseq]
      · rw [h2]
        omega

/-- Claim C3 (sequence contiguity): starting from a store whose
`state.sequence` is 0, the successful non-emergency appends of any run of
`logAction` calls are assigned exactly the sequence numbers `1, 2, …, N` in
append order (no gaps, no duplicates), and the final `state.sequence` is `N` —
so calls that fail or are routed to the emergency log never advance it. -/
theorem claim_c3_sequence_contiguity (cfg : ContinuityConfig) (s : StoreData)
    (trace : List (ActionEntry × FsOracle)) (h0 : s.state.sequence = 0) :
    successSeqs (runTrace cfg s trace).2
        = List.range' 1 (primCount (runTrace cfg s trace).2)
      ∧ (runTrace cfg s trace).1.state.sequence
        = primCount (runTrace cfg s trace).2 := by
  have h := runTrace_seqs cfg trace s
  rw [h0] at h
  simpa using h

/-- Witness for C3: a concrete trace whose middle call fails its primary
append (and is routed to the emergency log), bracketed by successful
appends. -/
theorem claim_c3_witness :
    successSeqs (runTrace cfgOff storeA
        [(entA, goodOracle "A"), (entB, oracleAppendFail), (entC, goodOracle "A")]).2
      = List.range' 1 (primCount (runTrace cfgOff storeA
          [(entA, goodOracle "A"), (entB, oracleAppendFail), (entC, goodOracle "A")]).2)
    ∧ (runTrace cfgOff storeA
        [(entA, goodOracle "A"), (entB, oracleAppendFail), (entC, goodOracle "A")]).1.state.sequence
      = primCount (runTrace cfgOff storeA
          [(entA, goodOracle "A"), (entB, oracleAppendFail), (entC, goodOracle "A")]).2 :=
  claim_c3_sequence_contiguity cfgOff storeA
    [(entA, goodOracle "A"), (entB, oracleAppendFail), (entC, goodOracle "A")] rfl

/-- Under an all-good oracle on a fixed day, a run of `logAction` calls is
exactly the pure chain builder: every call succeeds on the primary path and
appends one line to the stream file. -/
theorem runTrace_good (cfg : ContinuityConfig) (p : String) (hL : cfg.logLevel ≠ .off) :
    ∀ (es : List ActionEntry) (s : StoreData), s.initialized = true →
      s.emergencyMode = false → s.currentStreamPath = some p →
      runTrace cfg s (es.map fun e => (e, goodOracle p)) =
        ({ s with state := (buildChain cfg s.state es).1 },
          (buildChain cfg s.state es).2.map
            fun a => (LogResult.ret true, [WriteEvent.lineWrite p a]))
  | [], s => by
    intro _ _ _
    simp [runTrace, buildChain]
  | e :: es, s => by
    intro hInit hEm hPath
    have hstep := logAction_good cfg s e (goodOracle p) hL hInit hEm
      (by simpa [goodOracle] using hPath) rfl rfl rfl
    have ih := runTrace_good cfg p hL es
      { s with state := commitState cfg s.state (ContinuityStore.buildStoredAction cfg s.state e) }
      hInit hEm hPath
    simp only [List.map, runTrace, hstep]
    rw [ih]
    simp [buildChain, goodOracle]

/-- The stream lines of an all-successful trace are its stored actions. -/
theorem writtenActions_map (p : String) :
    ∀ (as : List StoredAction),
      writtenActions (as.map fun a => (LogResult.ret true, [WriteEvent.lineWrite p a])) = as
  | [] => rfl
  | a :: as => by
    have ih := writtenActions_map p as
    simpa [writtenActions, linesOf] using ih

/-- The writes of an all-successful trace are its line appends, in order. -/
theorem traceWrites_map (p : String) :
    ∀ (as : List StoredAction),
      traceWrites (as.map fun a => (LogResult.ret true, [WriteEvent.lineWrite p a]))
        = as.map (WriteEvent.lineWrite p)
  | [] => rfl
  | a :: as => by
    simpa [traceWrites] using traceWrites_map p as

/-- Line appends to `p` land in the file at `p` as action lines. -/
theorem streamFileLines_map (p : String) (as : List StoredAction) :
    streamFileLines p (as.map (WriteEvent.lineWrite p)) = as.map StreamLine.actionLine := by
  induction as with
  | nil => rfl
  | cons a as ih => simp [streamFileLines, WriteEvent.toLine] at ih ⊢; exact ih

/-- The chain builder with integrity on produces a well-linked chain anchored
at `state.lastHash || "genesis"`: claim P3's shape. -/
theorem buildChain_chain (cfg : ContinuityConfig) (hI : cfg.enableIntegrityCheck = true) :
    ∀ (es : List ActionEntry) (st : StreamState),
      chainFrom (jsOrGenesis st.lastHash) (buildChain cfg st es).2
  | [], st => by simp [buildChain, chainFrom]
  | e :: es, st => by
    have hb := buildStoredAction_on cfg st e hI
    have hc := commitState_lastHash cfg st (ContinuityStore.buildStoredAction cfg st e)
      ⟨ContinuityStore.calculateHash ⟨e, st.sequence + 1, none⟩ (jsOrGenesis st.lastHash),
        jsOrGenesis st.lastHash⟩ hI (by rw [hb])
    have ih := buildChain_chain cfg hI es
      (commitState cfg st (ContinuityStore.buildStoredAction cfg st e))
    rw [hc] at ih
    simp only [ContinuityStore.calculateHash, jsOrGenesis_hash] at ih
    simp only [buildChain, chainFrom]
    refine ⟨ContinuityStore.calculateHash ⟨e, st.sequence + 1, none⟩ (jsOrGenesis st.lastHash),
      ?_, ?_⟩
    · rw [hb]
    · simpa [ContinuityStore.calculateHash] using ih

/-- Claim C2 (chain continuity): in the stream produced by one initialized
store instance (loaded `lastHash` null) performing successful
integrity-enabled appends, every entry carries `_integrity`, the first
entry's `previous` is the literal `"genesis"`, and each subsequent entry's
`previous` equals the preceding entry's `hash`. -/
theorem claim_c2_chain_continuity (cfg : ContinuityConfig) (p : String)
    (s : StoreData) (es : List ActionEntry) (hL : cfg.logLevel ≠ .off)
    (hI : cfg.enableIntegrityCheck = true) (hInit : s.initialized = true)
    (hEm : s.emergencyMode = false) (hPath : s.currentStreamPath = some p)
    (hLast : s.state.lastHash = none) :
    chainFrom "genesis"
      (writtenActions (runTrace cfg s (es.map fun e => (e, goodOracle p))).2) := by
  rw [runTrace_good cfg p hL es s hInit hEm hPath]
  simp only [writtenActions_map]
  have h := buildChain_chain cfg hI es s.state
  rw [hLast] at h
  simpa [jsOrGenesis] using h

/-- Witness for C2: two integrity-enabled appends from a fresh initialized
store. -/
theorem claim_c2_witness :
    chainFrom "genesis"
      (writtenActions (runTrace cfgOn storeA
        ([entA, entB].map fun e => (e, goodOracle "A"))).2) :=
  claim_c2_chain_continuity cfgOn "A" storeA [entA, entB]
    (by decide) rfl rfl rfl rfl rfl

/-- Claim C1 (hash soundness): for any entry the store seals with
`enableIntegrityCheck` on, recomputing SHA-256 over the JSON serialization of
the entry without its `_integrity` field, concatenated with
`_integrity.previous` — the `IntegrityValidator`'s own recomputation rule —
yields exactly the stored `_integrity.hash`. (The validator receives the
parsed line; JS `JSON.parse ∘ JSON.stringify` preserves key order, so the
parsed action is modelled as the stored action itself.) -/
theorem claim_c1_hash_soundness (cfg : ContinuityConfig) (st : StreamState)
    (entry : ActionEntry) (hI : cfg.enableIntegrityCheck = true) (i : Integrity)
    (hsome : (ContinuityStore.buildStoredAction cfg st entry).integrity = some i) :
    IntegrityValidator.calculateHash
        (stripIntegrity (ContinuityStore.buildStoredAction cfg st entry)) i.previous
      = i.hash := by
  rw [buildStoredAction_on cfg st entry hI] at hsome ⊢
  simp only at hsome
  obtain rfl := (Option.some.inj hsome).symm
  rfl

/-- Witness for C1: the concrete first entry of a fresh chain; the recomputed
digest is checked against its explicit hex value. -/
theorem claim_c1_witness :
    IntegrityValidator.calculateHash
        (stripIntegrity (ContinuityStore.buildStoredAction cfgOn ⟨0, none⟩ entA))
        "genesis"
      = "1a9e6bbc490db26bddd375128557c12b739f9a1474e34ff6298abdb8e9d62a87" :=
  claim_c1_hash_soundness cfgOn ⟨0, none⟩ entA rfl
    ⟨"1a9e6bbc490db26bddd375128557c12b739f9a1474e34ff6298abdb8e9d62a87", "genesis"⟩
    (by decide)

/-- `validateAction` accepts an action the writer built, when validated
against a rolling hash that agrees with the writer's `lastHash` (both read
through `x || "genesis"`). -/
theorem validateAction_writer (cfg : ContinuityConfig) (st : StreamState)
    (e : ActionEntry) (hI : cfg.enableIntegrityCheck = true) (prev : Option String)
    (hprev : jsOrGenesis prev = jsOrGenesis st.lastHash) :
    IntegrityValidator.validateAction (ContinuityStore.buildStoredAction cfg st e) prev
      = none := by
  rw [buildStoredAction_on cfg st e hI]
  simp [IntegrityValidator.validateAction, hprev, IntegrityValidator.calculateHash,
    ContinuityStore.calculateHash, stripIntegrity]

/-- One validator step over a writer-built action: the count grows by one, no
error is recorded, and the rolling hash advances to the stored hash. -/
theorem valStep_writer (cfg : ContinuityConfig) (st : StreamState) (e : ActionEntry)
    (hI : cfg.enableIntegrityCheck = true) (v : IntegrityValidator.ValState)
    (hprev : jsOrGenesis v.previousHash = jsOrGenesis st.lastHash) :
    IntegrityValidator.valStep v
        (.actionLine (ContinuityStore.buildStoredAction cfg st e))
      = ⟨v.totalChecked + 1, v.errors,
          some (ContinuityStore.calculateHash ⟨e, st.sequence + 1, none⟩
            (jsOrGenesis st.lastHash)),
          (if jsStrTruthy v.firstAction then v.firstAction else some e.id),
          some e.id⟩ := by
  have hva := validateAction_writer cfg st e hI v.previousHash hprev
  simp only [IntegrityValidator.valStep, hva]
  rw [buildStoredAction_on cfg st e hI]

/-- Folding the validator over a writer-built chain: no errors appear, the
count grows by the chain length, the rolling hash ends in agreement with the
writer's final `lastHash`, and after at least one entry it is a digest. -/
theorem valFile_buildChain (cfg : ContinuityConfig) (hI : cfg.enableIntegrityCheck = true) :
    ∀ (es : List ActionEntry) (st : StreamState) (v : IntegrityValidator.ValState),
      jsOrGenesis v.previousHash = jsOrGenesis st.lastHash →
      (IntegrityValidator.valFile v
          ((buildChain cfg st es).2.map StreamLine.actionLine)).errors = v.errors
      ∧ (IntegrityValidator.valFile v
          ((buildChain cfg st es).2.map StreamLine.actionLine)).totalChecked
        = v.totalChecked + es.length
      ∧ jsOrGenesis (IntegrityValidator.valFile v
          ((buildChain cfg st es).2.map StreamLine.actionLine)).previousHash
        = jsOrGenesis (buildChain cfg st es).1.lastHash
      ∧ (es ≠ [] → ∃ x, (IntegrityValidator.valFile v
          ((buildChain cfg st es).2.map StreamLine.actionLine)).previousHash
            = some (Sha256.sha256Hex x))
  | [], st, v => by
    intro hprev
    simp [buildChain, IntegrityValidator.valFile, hprev]
  | e :: es, st, v => by
    intro hprev
    have hstep := valStep_writer cfg st e hI v hprev
    have hcommit := commitState_lastHash cfg st (ContinuityStore.buildStoredAction cfg st e)
      ⟨ContinuityStore.calculateHash ⟨e, st.sequence + 1, none⟩ (jsOrGenesis st.lastHash),
        jsOrGenesis st.lastHash⟩ hI (by rw [buildStoredAction_on cfg st e hI])
    have ih := valFile_buildChain cfg hI es
      (commitState cfg st (ContinuityStore.buildStoredAction cfg st e))
      ⟨v.totalChecked + 1, v.errors,
        some (ContinuityStore.calculateHash ⟨e, st.sequence + 1, none⟩
          (jsOrGenesis st.lastHash)),
        (if jsStrTruthy v.firstAction then v.firstAction else some e.id),
        some e.id⟩
      (by rw [hcommit])
    simp only [buildChain, List.map, IntegrityValidator.valFile, List.foldl_cons, hstep]
    simp only [IntegrityValidator.valFile] at ih
    refine ⟨?_, ?_, ?_, ?_⟩
    · exact (ih.1 : _)
    · rw [ih.2.1]
      simp only [List.length_cons]
      omega
    · exact ih.2.2.1
    · intro _
      rcases es with _ | ⟨e2, es'⟩
      · refine ⟨serializeAction ⟨e, st.sequence + 1, none⟩ ++ jsOrGenesis st.lastHash, ?_⟩
        simp [buildChain, IntegrityValidator.valFile, ContinuityStore.calculateHash]
      · exact ih.2.2.2 (by simp)

/-- C4 as amended: in the crash-recovery scenario (kill after `N ≥ 1` appends
with `close()` never called, re-initialize over the same path, append entry
`N+1`), `validateStream` counts all `N+1` entries but reports the stream
invalid with exactly one `chain_break`, at the post-restart entry — which
restarts at sequence 1 and `previous = "genesis"` because `loadState` finds no
`.state.json` and falls back to `{sequence: 0, lastHash: null}`. -/
theorem claim_c4_amended (cfg : ContinuityConfig) (p : String) (es : List ActionEntry)
    (e' : ActionEntry) (hL : cfg.logLevel ≠ .off) (hI : cfg.enableIntegrityCheck = true)
    (hes : es ≠ []) :
    (crashScenario cfg p es e').totalChecked = es.length + 1
    ∧ (crashScenario cfg p es e').valid = false
    ∧ (crashScenario cfg p es e').errors.map (fun er => (er.sequence, er.kind))
      = [(1, ErrKind.chain_break)] := by
  have h1 : ContinuityStore.initStore cfg .fresh none p false "T0"
      = (⟨⟨0, none⟩, some p, false, true⟩,
          [.headerWrite p ⟨"T0", cfg.enableIntegrityCheck⟩]) := rfl
  have h2 : ContinuityStore.initStore cfg .fresh none p true "T1"
      = (⟨⟨0, none⟩, some p, false, true⟩, []) := rfl
  have hrt := runTrace_good cfg p hL es ⟨⟨0, none⟩, some p, false, true⟩ rfl rfl rfl
  have hla := logAction_good cfg ⟨⟨0, none⟩, some p, false, true⟩ e' (goodOracle p)
    hL rfl rfl rfl rfl rfl rfl
  have hF1 : List.filterMap (fun x => WriteEvent.toLine p x)
      [WriteEvent.headerWrite p ⟨"T0", cfg.enableIntegrityCheck⟩]
      = [StreamLine.headerLine] := by
    simp [WriteEvent.toLine]
  have hF2 := streamFileLines_map p (buildChain cfg ⟨0, none⟩ es).2
  simp only [streamFileLines] at hF2
  have hF3 : List.filterMap (fun x => WriteEvent.toLine p x)
      [WriteEvent.lineWrite (goodOracle p).todayPath
        (ContinuityStore.buildStoredAction cfg ⟨0, none⟩ e')]
      = [StreamLine.actionLine (ContinuityStore.buildStoredAction cfg ⟨0, none⟩ e')] := by
    simp [WriteEvent.toLine, goodOracle]
  have hlines : crashScenario cfg p es e' =
      IntegrityValidator.validateStream
        [StreamLine.headerLine ::
          ((buildChain cfg ⟨0, none⟩ es).2.map StreamLine.actionLine
            ++ [StreamLine.actionLine
                  (ContinuityStore.buildStoredAction cfg ⟨0, none⟩ e')])] := by
    simp only [crashScenario, h1, h2]
    simp only [hrt, hla]
    simp only [traceWrites_map]
    simp only [streamFileLines, List.filterMap_append]
    rw [hF1, hF2, hF3]
    simp
  have hfold := valFile_buildChain cfg hI es ⟨0, none⟩ IntegrityValidator.ValState.init rfl
  obtain ⟨x, hx⟩ := hfold.2.2.2 hes
  obtain ⟨d, hva⟩ : ∃ d, IntegrityValidator.validateAction
      (ContinuityStore.buildStoredAction cfg ⟨0, none⟩ e')
      (IntegrityValidator.valFile IntegrityValidator.ValState.init
        ((buildChain cfg ⟨0, none⟩ es).2.map StreamLine.actionLine)).previousHash
      = some ⟨1, .chain_break, d⟩ := by
    have hne : ("genesis" : String) ≠ Sha256.sha256Hex x :=
      Ne.symm (sha256Hex_ne_genesis x)
    rw [buildStoredAction_on cfg ⟨0, none⟩ e' hI, hx]
    refine ⟨"Expected previous hash " ++ Sha256.sha256Hex x ++ ", found " ++ "genesis", ?_⟩
    simp [IntegrityValidator.validateAction, jsOrGenesis_none, jsOrGenesis_hash, hne]
  have hvalfile : IntegrityValidator.valFile IntegrityValidator.ValState.init
      (StreamLine.headerLine ::
        ((buildChain cfg ⟨0, none⟩ es).2.map StreamLine.actionLine
          ++ [StreamLine.actionLine (ContinuityStore.buildStoredAction cfg ⟨0, none⟩ e')]))
      = IntegrityValidator.valStep
          (IntegrityValidator.valFile IntegrityValidator.ValState.init
            ((buildChain cfg ⟨0, none⟩ es).2.map StreamLine.actionLine))
          (StreamLine.actionLine (ContinuityStore.buildStoredAction cfg ⟨0, none⟩ e')) := by
    have hh : IntegrityValidator.valStep IntegrityValidator.ValState.init .headerLine
        = IntegrityValidator.ValState.init := rfl
    simp [IntegrityValidator.valFile, List.foldl_cons, List.foldl_append, hh]
  have herr : (IntegrityValidator.valStep
      (IntegrityValidator.valFile IntegrityValidator.ValState.init
        ((buildChain cfg ⟨0, none⟩ es).2.map StreamLine.actionLine))
      (StreamLine.actionLine (ContinuityStore.buildStoredAction cfg ⟨0, none⟩ e'))).errors
      = [⟨1, .chain_break, d⟩] := by
    simp only [IntegrityValidator.valStep, hva, hfold.1]
    rfl
  have hcount : (IntegrityValidator.valStep
      (IntegrityValidator.valFile IntegrityValidator.ValState.init
        ((buildChain cfg ⟨0, none⟩ es).2.map StreamLine.actionLine))
      (StreamLine.actionLine (ContinuityStore.buildStoredAction cfg ⟨0, none⟩ e'))).totalChecked
      = es.length + 1 := by
    simp only [IntegrityValidator.valStep, hfold.2.1]
    simp [IntegrityValidator.ValState.init]
  rw [hlines]
  simp only [IntegrityValidator.validateStream, List.foldl_cons, List.foldl_nil, hvalfile]
  refine ⟨hcount, ?_, ?_⟩
  · rw [herr]
    rfl
  · rw [herr]
    rfl

/-- Witness for the amended C4 at `N = 1`. -/
theorem claim_c4_witness :
    (crashScenario cfgOn "A" [entA] entB).totalChecked = 1 + 1
    ∧ (crashScenario cfgOn "A" [entA] entB).valid = false
    ∧ (crashScenario cfgOn "A" [entA] entB).errors.map (fun er => (er.sequence, er.kind))
      = [(1, ErrKind.chain_break)] :=
  claim_c4_amended cfgOn "A" [entA] entB (by decide) rfl (List.cons_ne_nil entA [])

/-- Counterexample to C4 as stated: in the crash-recovery scenario with
`N = 1` the re-parsed stream is *not* valid — `validateStream` reports a
`chain_break`, because the re-initialized writer chained entry 2 against
`"genesis"` instead of entry 1's hash. -/
theorem claim_c4_counterexample :
    ¬ ((crashScenario cfgOn "A" [entA] entB).valid = true) := by
  decide

/-- Counterexample to C5 as stated: in the three-append tamper scenario the
validator reports no `chain_break` at sequence 3 at all — it advances its
rolling `previousHash` using the *stored* hash of line 2 (which tampering
left unchanged), so line 3's `previous` still matches. -/
theorem claim_c5_counterexample :
    ¬ ∃ er ∈ (tamperedReport cfgOn "A" entA entB entC).errors,
        er.kind = ErrKind.chain_break ∧ er.sequence = 3 := by
  decide

/-- C5 as amended: replacing the second stored line's `description` with
`"tampered"` (stored `_integrity` unchanged) makes `validateStream` report
the stream invalid with exactly one error — a `hash_mismatch` at sequence 2;
no `chain_break` follows at sequence 3 because the rolling hash advances
with the stored (unchanged) hash of line 2. -/
theorem claim_c5_amended_tamper :
    (tamperedReport cfgOn "A" entA entB entC).errors.map
        (fun er => (er.sequence, er.kind))
      = [(2, ErrKind.hash_mismatch)]
    ∧ (tamperedReport cfgOn "A" entA entB entC).valid = false
    ∧ (tamperedReport cfgOn "A" entA entB entC).totalChecked = 3 := by
  refine ⟨?_, ?_, ?_⟩ <;> decide

/-- Claim C6 is wrong about the code (code bug): on the rotation path, with
the new day's stream file already existing, the exclusive-create
(`flag: "wx"`) header write rejects and `logAction` propagates the exception
to its caller — the rotation block (store lines 369-374) sits outside every
try/catch, unlike the guarded path in `initialize`. With an identical oracle
whose header write succeeds, the same call returns a boolean. -/
theorem claim_c6_writer_raises_on_rotation :
    (ContinuityStore.logAction cfgOn storeA entA oracleRotateExists).1
      = LogResult.raised
    ∧ (ContinuityStore.logAction cfgOff storeA entA
        ⟨true, "B", true, true, true, true, "T"⟩).1 = LogResult.ret true := by
  constructor
  · rfl
  · rfl

/-- Counterexample to C7 as stated: after a primary append/fsync failure the
entry *is* routed to the emergency log and the call returns that write's
result — but emergency mode is *not* latched (the catch block never sets
`emergencyMode`), so the very next append goes back to the primary stream
rather than the emergency log. -/
theorem claim_c7_counterexample :
    (ContinuityStore.logAction cfgOff storeA entA oracleAppendFail).1
        = LogResult.ret true
    ∧ (ContinuityStore.logAction cfgOff storeA entA oracleAppendFail).2.1.emergencyMode
        = false
    ∧ ((ContinuityStore.logAction cfgOff storeA entA oracleAppendFail).2.2.any
        WriteEvent.isEmergency) = true
    ∧ ((ContinuityStore.logAction cfgOff
          (ContinuityStore.logAction cfgOff storeA entA oracleAppendFail).2.1
          entB (goodOracle "A")).2.2.any WriteEvent.isEmergency) = false
    ∧ ((ContinuityStore.logAction cfgOff
          (ContinuityStore.logAction cfgOff storeA entA oracleAppendFail).2.1
          entB (goodOracle "A")).2.2.any WriteEvent.isLine) = true := by
  refine ⟨rfl, rfl, rfl, rfl, rfl⟩

/-- C7 as amended: on an I/O failure of the primary append/fsync path (no day
change pending), `logAction` routes the original entry to the emergency log
and returns the result of that emergency write, leaving the chained state
*and* the emergency-mode flag unchanged; only the disk-space check latches
emergency mode. -/
theorem claim_c7_amended (cfg : ContinuityConfig) (s : StoreData) (e : ActionEntry)
    (o : FsOracle) (hL : cfg.logLevel ≠ .off) (hInit : s.initialized = true)
    (hEm : s.emergencyMode = false) (hSp : o.hasSpace = true)
    (hPath : s.currentStreamPath = some o.todayPath)
    (hFail : ¬ (o.appendOk = true ∧ o.syncOk = true)) :
    (ContinuityStore.logAction cfg s e o).1 = LogResult.ret o.emergencyWriteOk
    ∧ (ContinuityStore.logAction cfg s e o).2.1.emergencyMode = false
    ∧ (ContinuityStore.logAction cfg s e o).2.1.state = s.state
    ∧ ((ContinuityStore.logAction cfg s e o).2.2.any WriteEvent.isEmergency)
      = o.emergencyWriteOk := by
  by_cases hew : o.emergencyWriteOk <;>
    by_cases hap : o.appendOk <;>
      simp_all [ContinuityStore.logAction, ContinuityStore.logToEmergency,
        WriteEvent.isEmergency, WriteEvent.isLine, hL]

/-- Witness for the amended C7: the concrete failing-append oracle. -/
theorem claim_c7_witness :
    (ContinuityStore.logAction cfgOff storeA entA oracleAppendFail).1
        = LogResult.ret oracleAppendFail.emergencyWriteOk
    ∧ (ContinuityStore.logAction cfgOff storeA entA oracleAppendFail).2.1.emergencyMode
        = false
    ∧ (ContinuityStore.logAction cfgOff storeA entA oracleAppendFail).2.1.state
        = storeA.state
    ∧ ((ContinuityStore.logAction cfgOff storeA entA oracleAppendFail).2.2.any
        WriteEvent.isEmergency) = oracleAppendFail.emergencyWriteOk :=
  claim_c7_amended cfgOff storeA entA oracleAppendFail (by decide) rfl rfl rfl rfl
    (by decide)

/-- Claim C8 (emergency append atomicity): whenever an entry is routed to the
emergency path — latched emergency mode, a failed disk-space check, or a
primary append/fsync failure — `logAction` returns true iff appending the
augmented envelope `{...entry, _emergency: true, _emergency_timestamp}` to
`EMERGENCY_RECOVERY.jsonl` succeeds, and the in-memory `state.sequence` and
`state.lastHash` are left unchanged. -/
theorem claim_c8_emergency_atomicity (cfg : ContinuityConfig) (s : StoreData)
    (e : ActionEntry) (o : FsOracle) (hL : cfg.logLevel ≠ .off)
    (hInit : s.initialized = true)
    (hRoute : s.emergencyMode = true ∨ o.hasSpace = false
      ∨ ((some o.todayPath = s.currentStreamPath ∨ o.headerWriteOk = true)
          ∧ ¬ (o.appendOk = true ∧ o.syncOk = true))) :
    (ContinuityStore.logAction cfg s e o).1 = LogResult.ret o.emergencyWriteOk
    ∧ (ContinuityStore.logAction cfg s e o).2.1.state.sequence = s.state.sequence
    ∧ (ContinuityStore.logAction cfg s e o).2.1.state.lastHash = s.state.lastHash
    ∧ (o.emergencyWriteOk = true →
        WriteEvent.emergencyWrite ⟨e, true, o.nowIso⟩
          ∈ (ContinuityStore.logAction cfg s e o).2.2)
    ∧ (o.emergencyWriteOk = false →
        ((ContinuityStore.logAction cfg s e o).2.2.any WriteEvent.isEmergency)
          = false) := by
  by_cases hem : s.emergencyMode
  · by_cases hew : o.emergencyWriteOk <;>
      simp_all [ContinuityStore.logAction, ContinuityStore.logToEmergency,
        WriteEvent.isEmergency, hL]
  · by_cases hsp : o.hasSpace
    · rcases hRoute with hR | hR | hR
      · exact absurd hR (by simp_all)
      · exact absurd hR (by simp_all)
      · have hrotok : ¬ (some o.todayPath ≠ s.currentStreamPath ∧ ¬ o.headerWriteOk = true) := by
          rcases hR.1 with h | h
          · intro hc
            exact hc.1 h
          · intro hc
            exact hc.2 h
        by_cases hew : o.emergencyWriteOk <;>
          by_cases hrot : some o.todayPath = s.currentStreamPath <;>
            by_cases hap : o.appendOk <;>
              simp_all [ContinuityStore.logAction, ContinuityStore.logToEmergency,
                WriteEvent.isEmergency, hL]
    · by_cases hew : o.emergencyWriteOk <;>
        simp_all [ContinuityStore.logAction, ContinuityStore.logToEmergency,
          WriteEvent.isEmergency, hL]

/-- Witness for C8: a store already latched in emergency mode, with a
succeeding emergency write. -/
theorem claim_c8_witness :
    (ContinuityStore.logAction cfgOff ⟨⟨5, some "h"⟩, some "A", true, true⟩ entA
        (goodOracle "A")).1 = LogResult.ret (goodOracle "A").emergencyWriteOk
    ∧ (ContinuityStore.logAction cfgOff ⟨⟨5, some "h"⟩, some "A", true, true⟩ entA
        (goodOracle "A")).2.1.state.sequence = (5 : Nat)
    ∧ (ContinuityStore.logAction cfgOff ⟨⟨5, some "h"⟩, some "A", true, true⟩ entA
        (goodOracle "A")).2.1.state.lastHash = some "h"
    ∧ ((goodOracle "A").emergencyWriteOk = true →
        WriteEvent.emergencyWrite ⟨entA, true, (goodOracle "A").nowIso⟩
          ∈ (ContinuityStore.logAction cfgOff ⟨⟨5, some "h"⟩, some "A", true, true⟩ entA
              (goodOracle "A")).2.2) :=
  ⟨(claim_c8_emergency_atomicity cfgOff ⟨⟨5, some "h"⟩, some "A", true, true⟩
      entA (goodOracle "A") (by decide) rfl (Or.inl rfl)).1,
   (claim_c8_emergency_atomicity cfgOff ⟨⟨5, some "h"⟩, some "A", true, true⟩
      entA (goodOracle "A") (by decide) rfl (Or.inl rfl)).2.1,
   (claim_c8_emergency_atomicity cfgOff ⟨⟨5, some "h"⟩, some "A", true, true⟩
      entA (goodOracle "A") (by decide) rfl (Or.inl rfl)).2.2.1,
   fun h => (claim_c8_emergency_atomicity cfgOff ⟨⟨5, some "h"⟩, some "A", true, true⟩
      entA (goodOracle "A") (by decide) rfl (Or.inl rfl)).2.2.2.1 h⟩

/-- Claim C9 (implicit resumption decision): with no prior action on record
the result is `shouldRestore = false` with `gapMinutes = Infinity`; with a
last action whose age in minutes is strictly below the threshold the result
is `shouldRestore = true` carrying the activity time, the gap, the threshold,
and the one-hour summary (`getRecentActivitySummary(1)`); otherwise
`shouldRestore = false`. -/
theorem claim_c9_implicit_resumption (summary : ℚ → RecentContext) (ts : String)
    (lastMs now : Int) (th : ℚ) :
    SessionRestorer.detectImplicitResumption summary none now th
        = ⟨false, "", .inf, th, none⟩
    ∧ (((now - lastMs : Int) : ℚ) / 60000 < th →
        SessionRestorer.detectImplicitResumption summary (some (ts, lastMs)) now th
          = ⟨true, ts, .fin (((now - lastMs : Int) : ℚ) / 60000), th,
              some (summary 1)⟩)
    ∧ (¬ (((now - lastMs : Int) : ℚ) / 60000 < th) →
        SessionRestorer.detectImplicitResumption summary (some (ts, lastMs)) now th
          = ⟨false, ts, .fin (((now - lastMs : Int) : ℚ) / 60000), th, none⟩) := by
  refine ⟨rfl, fun h => ?_, fun h => ?_⟩
  · simp only [SessionRestorer.detectImplicitResumption]
    rw [if_pos h]
  · simp only [SessionRestorer.detectImplicitResumption]
    rw [if_neg h]

/-- Witness for C9: last activity 10 minutes ago against a 30-minute
threshold triggers restoration with the one-hour summary attached. -/
theorem claim_c9_witness :
    SessionRestorer.detectImplicitResumption summaryW (some ("x", 0)) 600000 30
      = ⟨true, "x", .fin (((600000 - 0 : Int) : ℚ) / 60000), 30, some (summaryW 1)⟩ :=
  (claim_c9_implicit_resumption summaryW "x" 0 600000 30).2.1 (by norm_num)

/-- Once the accumulator has reached the limit, the scan stops. -/
theorem recentGo_stop {α : Type} (limit : Nat) :
    ∀ (l : List (Option α)) (acc : List α), limit ≤ acc.length →
      ContinuityStore.recentGo limit l acc = acc
  | [], _ => fun _ => rfl
  | _ :: _, acc => fun h => by
    simp [ContinuityStore.recentGo, Nat.not_lt.2 h]

/-- The scan splits over list append. -/
theorem recentGo_append {α : Type} (limit : Nat) :
    ∀ (l1 l2 : List (Option α)) (acc : List α),
      ContinuityStore.recentGo limit (l1 ++ l2) acc
        = ContinuityStore.recentGo limit l2 (ContinuityStore.recentGo limit l1 acc)
  | [], _, _ => rfl
  | x :: l1, l2, acc => by
    by_cases h : acc.length < limit
    · cases x <;> simp [ContinuityStore.recentGo, h, recentGo_append limit l1 l2]
    · simp [ContinuityStore.recentGo, h,
        recentGo_stop limit l2 acc (Nat.not_lt.1 h),
        recentGo_stop limit l1 acc (Nat.not_lt.1 h)]

/-- Scanning the reversal of wholly-parseable lines collects them all, in
forward order, when they fit under the limit. -/
theorem recentGo_somes {α : Type} (limit : Nat) :
    ∀ (l : List α) (acc : List α), acc.length + l.length ≤ limit →
      ContinuityStore.recentGo limit (l.map some).reverse acc = l ++ acc
  | [], _ => fun _ => rfl
  | a :: l, acc => fun h => by
    have h0 : acc.length + (l.length + 1) ≤ limit := by simpa using h
    have h' : acc.length + l.length ≤ limit := by omega
    rw [List.map_cons, List.reverse_cons, recentGo_append,
      recentGo_somes limit l acc h']
    have hlen : l.length + acc.length < limit := by omega
    simp [ContinuityStore.recentGo, List.length_append, hlen]

/-- Unparseable lines never contribute, whatever the accumulator. -/
theorem recentGo_nones {α : Type} (limit : Nat) :
    ∀ (m : Nat) (acc : List α),
      ContinuityStore.recentGo limit (List.replicate m none) acc = acc
  | 0, _ => rfl
  | m + 1, acc => by
    by_cases h : acc.length < limit <;>
      simp [List.replicate, ContinuityStore.recentGo, h, recentGo_nones limit m]

/-- Claim C10 (header leakage in reads): for a current-day stream file whose
first line is the writer's header object, followed by any number of
unparseable lines and `k < limit` parseable action lines, `getRecentActions`
returns `k + 1` elements whose first element is the parsed header object —
the header is included like any other valid JSON line, and only unparseable
lines are skipped. -/
theorem claim_c10_header_leak (c : String) (b : Bool) (acts : List Json)
    (m limit : Nat) (h : acts.length < limit) :
    ContinuityStore.getRecentActions limit
        (some ((StreamHeader.mk c b).toJson)
          :: (List.replicate m none ++ acts.map some))
      = (StreamHeader.mk c b).toJson :: acts := by
  unfold ContinuityStore.getRecentActions
  rw [List.reverse_cons, List.reverse_append, List.reverse_replicate]
  rw [recentGo_append, recentGo_append]
  rw [recentGo_somes limit acts [] (by simpa using Nat.le_of_lt h)]
  rw [List.append_nil, recentGo_nones]
  simp [ContinuityStore.recentGo, h]

/-- Witness for C10: one header line, one unparseable line, one action line,
limit 100. -/
theorem claim_c10_witness :
    ContinuityStore.getRecentActions 100
        (some ((StreamHeader.mk "t" true).toJson)
          :: (List.replicate 1 none ++ [Json.null].map some))
      = (StreamHeader.mk "t" true).toJson :: [Json.null] :=
  claim_c10_header_leak "t" true [Json.null] 1 100 (by decide)
